import Mathlib

/-
Verification of the inventory-reservation and booking-lifecycle core of the
ticket-booking service.  The Go sources are shallowly embedded: the relational
store (events and bookings tables), the counter cache and the notification bus
become explicit components of a system state, and each service operation
becomes a pure state-transforming function translated line by line from its
Go counterpart.  Go `int`/`int64` fields are modelled as `Int` (the relevant
arithmetic happens in SQL or stays far from the 64-bit boundary in every claim
considered here).
-/

namespace TicketBooking

/-- Booking lifecycle status, from `internal/booking/model.go`
(`StatusPending`, `StatusConfirmed`, `StatusCancelled`). -/
inductive Status where
  | pending
  | confirmed
  | cancelled
deriving DecidableEq, Repr

/-- Event row, from `internal/event/model.go`.  The `ID` column is the key of
the `events` association list in `SysState`, so it is not repeated here. -/
structure Event where
  name : String
  description : Option String
  startsAt : Int
  endsAt : Int
  capacity : Int
  remaining : Int
  ticketPriceCents : Int
deriving DecidableEq, Repr

/-- Booking row, from `internal/booking/model.go`. -/
structure Booking where
  id : String
  userID : String
  eventID : String
  quantity : Int
  unitPriceCents : Int
  status : Status
deriving DecidableEq, Repr

/-- Payload published on `booking.created`, from
`internal/booking/service.go` (`BookingCreatedMessage`). -/
structure BookingCreatedMessage where
  bookingID : String
  userID : String
  eventID : String
  quantity : Int
deriving DecidableEq, Repr

/-- Association-list lookup keyed by strings; models `SELECT ... WHERE id = ?`
on a keyed table and `GET` on one Redis key namespace. -/
def lookup {β : Type} (k : String) : List (String × β) → Option β
  | [] => none
  | p :: rest => if p.1 = k then some p.2 else lookup k rest

/-- Association-list update/insert; models `UPDATE ... WHERE id = ?` /
`gorm.Save` on a keyed table and `SET` on one Redis key namespace. -/
def setKey {β : Type} (k : String) (v : β) : List (String × β) → List (String × β)
  | [] => [(k, v)]
  | p :: rest => if p.1 = k then (k, v) :: rest else p :: setKey k v rest

/-- The world state the booking and event services act on: the two relational
tables, the three per-id cache namespaces of the spec (`event:remaining:<id>`
counters, `event:<id>:stats` blobs, `booking:pending:<id>` markers, each
modelled as a map keyed by the id), and the list of published messages.
The stats blob is kept as the pair (tickets sold, revenue in cents); the
cached JSON presents the second component divided by 100. -/
structure SysState where
  events : List (String × Event)
  bookings : List Booking
  cacheRemaining : List (String × Int)
  statsCache : List (String × (Int × Int))
  pendingKeys : List String
  published : List BookingCreatedMessage
deriving DecidableEq, Repr

/-- Errors surfaced by the embedded operations: gorm's record-not-found,
`ErrNotEnoughTickets`, and a failing `publisher.Publish`. -/
inductive SvcError where
  | recordNotFound
  | notEnoughTickets
  | publishFailed
deriving DecidableEq, Repr

/-- repo.Reserve (`internal/event/repository.go`): the legacy conditional
`UPDATE events SET remaining = remaining - ? WHERE id = ? AND remaining >= ?`;
granted iff a row was affected.  A missing event affects no row, so it
reports `false` without error. -/
def repoReserve (s : SysState) (eid : String) (qty : Int) : Bool × SysState :=
  match lookup eid s.events with
  | none => (false, s)
  | some e =>
    if e.remaining ≥ qty then
      (true, { s with events := setKey eid { e with remaining := e.remaining - qty } s.events })
    else
      (false, s)

/-- repo.ReserveTx (`internal/event/repository.go`): `SELECT ... FOR UPDATE`,
then check `e.Remaining < qty`, decrement and `Save`.  A missing event is a
`First` error. -/
def repoReserveTx (s : SysState) (eid : String) (qty : Int) :
    Except SvcError (Bool × SysState) :=
  match lookup eid s.events with
  | none => Except.error SvcError.recordNotFound
  | some e =>
    if e.remaining < qty then
      Except.ok (false, s)
    else
      Except.ok (true, { s with events := setKey eid { e with remaining := e.remaining - qty } s.events })

/-- event Service.ReserveTx (unnamed event service file): delegates to
`repo.Reserve`, and on grant re-reads the row and syncs the
`event:remaining:<id>` cache counter to the stored remaining. -/
def serviceReserveTx (s : SysState) (eid : String) (qty : Int) : Bool × SysState :=
  match repoReserve s eid qty with
  | (false, s1) => (false, s1)
  | (true, s1) =>
    match lookup eid s1.events with
    | some e => (true, { s1 with cacheRemaining := setKey eid e.remaining s1.cacheRemaining })
    | none => (true, s1)

/-- Redis.DecrementSeats (cache adapter): `DECRBY event:remaining:<id> qty`,
returning the post-decrement value; an absent key starts from 0. -/
def decrementSeats (s : SysState) (eid : String) (qty : Int) : Int × SysState :=
  let n := (lookup eid s.cacheRemaining).getD 0 - qty
  (n, { s with cacheRemaining := setKey eid n s.cacheRemaining })

/-- event Service.Reserve (speculative cache path): atomically decrement the
counter; when the result is negative, roll back by decrementing again with
`-qty` and report not granted. -/
def serviceReserve (s : SysState) (eid : String) (qty : Int) : Bool × SysState :=
  let (remaining, s1) := decrementSeats s eid qty
  if remaining < 0 then
    let (_, s2) := decrementSeats s1 eid (-qty)
    (false, s2)
  else
    (true, s1)

/-- event Service.Release: `UPDATE events SET remaining = LEAST(remaining + ?,
capacity) WHERE id = ?`, then re-read the row and sync the cache counter to
the stored remaining (a missing event affects no row and the re-read fails,
leaving the cache untouched). -/
def serviceRelease (s : SysState) (eid : String) (qty : Int) : SysState :=
  match lookup eid s.events with
  | none => s
  | some e =>
    let e1 := { e with remaining := min (e.remaining + qty) e.capacity }
    { s with
        events := setKey eid e1 s.events,
        cacheRemaining := setKey eid e1.remaining s.cacheRemaining }

/-- repo.Get for bookings (`BookingRepository.Get`): `First(&b, "id = ?", id)`. -/
def repoGetBooking : List Booking → String → Option Booking
  | [], _ => none
  | b :: rest, bid => if b.id = bid then some b else repoGetBooking rest bid

/-- repo.UpdateStatus for bookings: `UPDATE bookings SET status = ? WHERE id = ?`. -/
def repoUpdateStatus (bs : List Booking) (bid : String) (st : Status) : List Booking :=
  bs.map (fun b => if b.id = bid then { b with status := st } else b)

/-- The two aggregate SQL queries of `updateEventStatsCache` / `StatsDB`:
`SUM(quantity)` and `SUM(quantity * unit_price_cents)` over rows with
`event_id = ?` and `status = CONFIRMED` (both `COALESCE`d to 0). -/
def statsRecompute : List Booking → String → Int × Int
  | [], _ => (0, 0)
  | b :: rest, eid =>
    let (t, r) := statsRecompute rest eid
    if b.eventID = eid ∧ b.status = Status.confirmed then
      (t + b.quantity, r + b.quantity * b.unitPriceCents)
    else
      (t, r)

/-- booking Service.updateEventStatsCache: recompute the two sums from the
ledger and overwrite the `event:<id>:stats` cache entry (no expiry).  The
cached JSON presents the revenue sum divided by 100; the blob is modelled by
the pair of sums in cents. -/
def updateEventStatsCache (s : SysState) (eid : String) : SysState :=
  { s with statsCache := setKey eid (statsRecompute s.bookings eid) s.statsCache }

/-- Cache.Del on a `booking:pending:<id>` marker. -/
def delPending (l : List String) (bid : String) : List String :=
  l.filter (fun k => decide (k ≠ bid))

/-- booking Service.ConfirmBooking: load the booking (error if absent);
return success untouched when already CONFIRMED; otherwise set the status to
CONFIRMED, recompute the event stats cache, and delete the pending marker. -/
def confirmBooking (s : SysState) (bid : String) : Except SvcError SysState :=
  match repoGetBooking s.bookings bid with
  | none => Except.error SvcError.recordNotFound
  | some b =>
    if b.status = Status.confirmed then
      Except.ok s
    else
      let s1 := { s with bookings := repoUpdateStatus s.bookings bid Status.confirmed }
      let s2 := updateEventStatsCache s1 b.eventID
      Except.ok { s2 with pendingKeys := delPending s2.pendingKeys bid }

/-- booking Service.CancelBooking: load the booking (error if absent); return
success untouched when already CANCELLED; otherwise set the status to
CANCELLED, release the booking's quantity through the event reserver,
recompute the event stats cache, and delete the pending marker. -/
def cancelBooking (s : SysState) (bid : String) : Except SvcError SysState :=
  match repoGetBooking s.bookings bid with
  | none => Except.error SvcError.recordNotFound
  | some b =>
    if b.status = Status.cancelled then
      Except.ok s
    else
      let s1 := { s with bookings := repoUpdateStatus s.bookings bid Status.cancelled }
      let s2 := serviceRelease s1 b.eventID b.quantity
      let s3 := updateEventStatsCache s2 b.eventID
      Except.ok { s3 with pendingKeys := delPending s3.pendingKeys bid }

/-- booking Service.CreateBooking.  Inside one transaction: reserve through
the event service (authoritative), load the event for its current price, and
insert a PENDING booking row; a transaction error rolls the relational tables
back to their pre-transaction contents (the cache sync inside `ReserveTx`
only happens on grant, so the abort paths touch no cache).  After commit:
publish `booking.created` — a failure there is returned to the caller as an
error while the committed row stays — then set the 15-minute pending marker,
whose failure is only logged.  `newID` stands for the generated row id;
`publishFails` and `cacheSetFails` inject the environment's behaviour of the
two post-commit collaborators. -/
def createBooking (s : SysState) (userID eventID : String) (qty : Int)
    (newID : String) (publishFails cacheSetFails : Bool) :
    Except SvcError String × SysState :=
  match serviceReserveTx s eventID qty with
  | (false, _) => (Except.error SvcError.notEnoughTickets, s)
  | (true, s1) =>
    match lookup eventID s1.events with
    | none =>
      (Except.error SvcError.recordNotFound,
        { s with cacheRemaining := s1.cacheRemaining })
    | some ev =>
      let b : Booking :=
        { id := newID, userID := userID, eventID := eventID, quantity := qty,
          unitPriceCents := ev.ticketPriceCents, status := Status.pending }
      let s2 := { s1 with bookings := s1.bookings ++ [b] }
      if publishFails then
        (Except.error SvcError.publishFailed, s2)
      else
        let msg : BookingCreatedMessage :=
          { bookingID := newID, userID := userID, eventID := eventID, quantity := qty }
        let s3 := { s2 with published := s2.published ++ [msg] }
        let s4 :=
          if cacheSetFails then s3
          else { s3 with pendingKeys := s3.pendingKeys ++ [newID] }
        (Except.ok newID, s4)

/-- booking Handler.Create's error mapping: `ErrNotEnoughTickets` becomes
HTTP 409 Conflict, any other error 500, success 201. -/
def handlerCreateStatus : Except SvcError String → Int
  | Except.error SvcError.notEnoughTickets => 409
  | Except.error _ => 500
  | Except.ok _ => 201

/-- Lifecycle operations considered by the statistics-correctness property. -/
inductive LifecycleOp where
  | confirm (bid : String)
  | cancel (bid : String)
deriving DecidableEq, Repr

/-- Run one lifecycle call; a call that errors leaves the state unchanged
(the service mutates nothing before the failing load). -/
def runOp (s : SysState) : LifecycleOp → SysState
  | LifecycleOp.confirm bid =>
    match confirmBooking s bid with
    | Except.ok t => t
    | Except.error _ => s
  | LifecycleOp.cancel bid =>
    match cancelBooking s bid with
    | Except.ok t => t
    | Except.error _ => s

/-- Run a sequence of lifecycle calls. -/
def runOps : SysState → List LifecycleOp → SysState
  | s, [] => s
  | s, op :: rest => runOps (runOp s op) rest

/-- Statistics agreement for one event: whatever the stats cache holds for it
equals the full recomputation over the current ledger. -/
def statsAgrees (s : SysState) (eid : String) : Prop :=
  ∀ v, lookup eid s.statsCache = some v → v = statsRecompute s.bookings eid

/-- Booking ids are pairwise distinct (the `id` column is the primary key). -/
def idsUnique (bs : List Booking) : Prop :=
  bs.Pairwise (fun a b => a.id ≠ b.id)

/-- UpdateEventRequest (event dto): every field optional. -/
structure UpdateEventRequest where
  name : Option String
  description : Option String
  startsAt : Option Int
  endsAt : Option Int
  capacity : Option Int
  ticketPriceCents : Option Int
deriving DecidableEq, Repr

/-- minInt helper from the event handler file. -/
def minInt (a b : Int) : Int :=
  if a < b then a else b

/-- event Handler.Update: start from the existing row, apply each present
field of the request; for a capacity edit, the handler adjusts `remaining`
to `minInt remaining newCapacity` only when `newCapacity ≥ remaining`, then
sets `capacity`. -/
def handlerUpdateEvent (existing : Event) (req : UpdateEventRequest) : Event :=
  let e0 := existing
  let e1 := match req.name with
    | some n => { e0 with name := n }
    | none => e0
  let e2 := match req.description with
    | some d => { e1 with description := some d }
    | none => e1
  let e3 := match req.startsAt with
    | some t => { e2 with startsAt := t }
    | none => e2
  let e4 := match req.endsAt with
    | some t => { e3 with endsAt := t }
    | none => e3
  let e5 := match req.capacity with
    | some c =>
      let eAdj := if c ≥ e4.remaining then { e4 with remaining := minInt e4.remaining c } else e4
      { eAdj with capacity := c }
    | none => e4
  match req.ticketPriceCents with
  | some p => { e5 with ticketPriceCents := p }
  | none => e5

/-- Concrete event fixture: capacity 10, 5 seats remaining, price 10.00. -/
def evA : Event :=
  { name := "Concert", description := none, startsAt := 100, endsAt := 200,
    capacity := 10, remaining := 5, ticketPriceCents := 1000 }

/-- Concrete system fixture holding only `evA` under id `e1`. -/
def sA : SysState :=
  { events := [("e1", evA)], bookings := [], cacheRemaining := [("e1", 5)],
    statsCache := [], pendingKeys := [], published := [] }

/-- Concrete PENDING booking of 2 seats on `e1`. -/
def bkPending : Booking :=
  { id := "b1", userID := "u1", eventID := "e1", quantity := 2,
    unitPriceCents := 1000, status := Status.pending }

/-- Concrete system fixture with one PENDING booking and its pending marker. -/
def sPending : SysState :=
  { sA with bookings := [bkPending], pendingKeys := ["b1"] }

/-- Concrete CANCELLED booking of 2 seats on `e1`. -/
def bkCancelled : Booking :=
  { bkPending with status := Status.cancelled }

/-- Concrete system fixture with one CANCELLED booking. -/
def sCancelled : SysState :=
  { sA with bookings := [bkCancelled] }

/-- Concrete CONFIRMED booking of 2 seats on `e1`. -/
def bkConfirmed : Booking :=
  { bkPending with status := Status.confirmed }

/-- Concrete system fixture with one CONFIRMED booking. -/
def sConfirmed : SysState :=
  { sA with bookings := [bkConfirmed] }

/-- Concrete state reached by confirming `b1` from `sPending`. -/
def sAfterConfirm : SysState :=
  { sA with bookings := [bkConfirmed], statsCache := [("e1", (2, 2000))] }

/-- Concrete update request editing only the capacity, down to 3. -/
def reqCapacity3 : UpdateEventRequest :=
  { name := none, description := none, startsAt := none,
    endsAt := none, capacity := some 3, ticketPriceCents := none }

/-- Concrete update request editing only the capacity, up to 20. -/
def reqCapacity20 : UpdateEventRequest :=
  { name := none, description := none, startsAt := none,
    endsAt := none, capacity := some 20, ticketPriceCents := none }

theorem lookup_setKey_self {β : Type} (k : String) (v : β) (l : List (String × β)) :
    lookup k (setKey k v l) = some v := by
  induction l with
  | nil => simp [lookup, setKey]
  | cons p rest ih =>
    by_cases hp : p.1 = k
    · simp [lookup, setKey, hp]
    · simp [lookup, setKey, hp, ih]

theorem lookup_setKey_ne {β : Type} (k q : String) (v : β) (l : List (String × β))
    (h : q ≠ k) : lookup q (setKey k v l) = lookup q l := by
  have hk : ¬ k = q := fun hkq => h hkq.symm
  induction l with
  | nil => simp [lookup, setKey, hk]
  | cons p rest ih =>
    by_cases hp : p.1 = k
    · simp [lookup, setKey, hp, hk]
    · simp only [setKey, if_neg hp, lookup]
      by_cases hq : p.1 = q
      · simp [hq]
      · simp [hq, ih]

theorem repoGetBooking_eq_none (bs : List Booking) (bid : String)
    (h : ∀ b ∈ bs, b.id ≠ bid) : repoGetBooking bs bid = none := by
  induction bs with
  | nil => rfl
  | cons b rest ih =>
    have hb : b.id ≠ bid := h b (List.mem_cons_self b rest)
    simp only [repoGetBooking, if_neg hb]
    exact ih (fun x hx => h x (List.mem_cons_of_mem b hx))

theorem repoUpdateStatus_of_absent (bs : List Booking) (bid : String) (st : Status)
    (h : ∀ b ∈ bs, b.id ≠ bid) : repoUpdateStatus bs bid st = bs := by
  induction bs with
  | nil => rfl
  | cons b rest ih =>
    have hb : b.id ≠ bid := h b (List.mem_cons_self b rest)
    simp only [repoUpdateStatus, List.map_cons, if_neg hb]
    have := ih (fun x hx => h x (List.mem_cons_of_mem b hx))
    simp only [repoUpdateStatus] at this
    rw [this]

theorem repoGetBooking_update (bs : List Booking) (bid : String) (st : Status) :
    repoGetBooking (repoUpdateStatus bs bid st) bid
      = (repoGetBooking bs bid).map (fun b => { b with status := st }) := by
  induction bs with
  | nil => rfl
  | cons b rest ih =>
    by_cases hb : b.id = bid
    · simp [repoUpdateStatus, repoGetBooking, hb]
    · simp only [repoUpdateStatus, List.map_cons, if_neg hb, repoGetBooking]
      simpa [repoUpdateStatus] using ih

theorem repoGetBooking_append (bs : List Booking) (b : Booking) (bid : String)
    (h : repoGetBooking bs bid = none) (hb : b.id = bid) :
    repoGetBooking (bs ++ [b]) bid = some b := by
  induction bs with
  | nil => simp [repoGetBooking, hb]
  | cons x rest ih =>
    by_cases hx : x.id = bid
    · simp [repoGetBooking, hx] at h
    · simp only [repoGetBooking, if_neg hx] at h
      simp only [List.cons_append, repoGetBooking, if_neg hx]
      exact ih h

theorem idsUnique_update (bs : List Booking) (bid : String) (st : Status)
    (h : idsUnique bs) : idsUnique (repoUpdateStatus bs bid st) := by
  unfold idsUnique repoUpdateStatus
  refine List.Pairwise.map _ ?_ h
  intro a b hab
  have hfa : (if a.id = bid then { a with status := st } else a).id = a.id := by
    by_cases ha : a.id = bid <;> simp [ha]
  have hfb : (if b.id = bid then { b with status := st } else b).id = b.id := by
    by_cases hb2 : b.id = bid <;> simp [hb2]
  intro hcontra
  exact hab ((hfa.symm.trans hcontra).trans hfb)

theorem statsRecompute_update_ne (bs : List Booking) (bid : String) (st : Status)
    (eid : String) (hu : idsUnique bs) (b : Booking)
    (hb : repoGetBooking bs bid = some b) (hne : b.eventID ≠ eid) :
    statsRecompute (repoUpdateStatus bs bid st) eid = statsRecompute bs eid := by
  induction bs with
  | nil => simp [repoGetBooking] at hb
  | cons x rest ih =>
    rcases List.pairwise_cons.mp hu with ⟨hx, hrest⟩
    by_cases hxb : x.id = bid
    · simp only [repoGetBooking, if_pos hxb] at hb
      have hbx : b = x := by injection hb with h1; exact h1.symm
      subst hbx
      have habs : ∀ y ∈ rest, y.id ≠ bid := by
        intro y hy hyid
        exact (hx y hy) (hxb.trans hyid.symm)
      have hrw : repoUpdateStatus rest bid st = rest := repoUpdateStatus_of_absent rest bid st habs
      simp only [repoUpdateStatus, List.map_cons, if_pos hxb]
      have hrw2 : List.map (fun y => if y.id = bid then { y with status := st } else y) rest = rest := by
        simpa [repoUpdateStatus] using hrw
      rw [hrw2]
      simp [statsRecompute, hne]
    · simp only [repoGetBooking, if_neg hxb] at hb
      simp only [repoUpdateStatus, List.map_cons, if_neg hxb]
      have ihr := ih hrest hb
      simp only [repoUpdateStatus] at ihr
      simp [statsRecompute, ihr]

theorem serviceRelease_bookings (s : SysState) (eid : String) (qty : Int) :
    (serviceRelease s eid qty).bookings = s.bookings := by
  unfold serviceRelease
  cases lookup eid s.events <;> rfl

theorem serviceRelease_statsCache (s : SysState) (eid : String) (qty : Int) :
    (serviceRelease s eid qty).statsCache = s.statsCache := by
  unfold serviceRelease
  cases lookup eid s.events <;> rfl

/-- C1: for every event state with remaining `e.remaining` and requested
quantity `qty`, the authoritative reservation (event Service.ReserveTx
delegating to repo.Reserve) grants and decreases remaining by exactly `qty`
when `qty ≤ remaining`, denies leaving the state unchanged when
`remaining < qty`, and starting from a non-negative remaining it never
produces a negative remaining. -/
theorem reserveTx_spec (s : SysState) (eid : String) (qty : Int) (e : Event)
    (h : lookup eid s.events = some e) :
    (qty ≤ e.remaining →
      (serviceReserveTx s eid qty).1 = true ∧
      lookup eid (serviceReserveTx s eid qty).2.events
        = some { e with remaining := e.remaining - qty }) ∧
    (e.remaining < qty →
      (serviceReserveTx s eid qty).1 = false ∧
      (serviceReserveTx s eid qty).2 = s) ∧
    (0 ≤ e.remaining →
      ∀ e2, lookup eid (serviceReserveTx s eid qty).2.events = some e2 →
        0 ≤ e2.remaining) := by
  by_cases hge : e.remaining ≥ qty
  · have hstep : serviceReserveTx s eid qty
        = (true,
           { s with
              events := setKey eid { e with remaining := e.remaining - qty } s.events,
              cacheRemaining := setKey eid (e.remaining - qty) s.cacheRemaining }) := by
      simp [serviceReserveTx, repoReserve, h, hge, lookup_setKey_self]
    refine ⟨fun _ => ?_, fun hlt => absurd hlt (not_lt.mpr hge), fun _ e2 he2 => ?_⟩
    · rw [hstep]
      exact ⟨rfl, lookup_setKey_self ..⟩
    · rw [hstep] at he2
      simp only [lookup_setKey_self] at he2
      injection he2 with he2
      rw [← he2]
      simpa using sub_nonneg.mpr hge
  · have hlt : e.remaining < qty := lt_of_not_ge hge
    have hstep : serviceReserveTx s eid qty = (false, s) := by
      simp [serviceReserveTx, repoReserve, h, hge]
    refine ⟨fun hq => absurd hlt (not_lt.mpr hq), fun _ => ?_, fun hnn e2 he2 => ?_⟩
    · rw [hstep]
      exact ⟨rfl, rfl⟩
    · rw [hstep] at he2
      rw [h] at he2
      injection he2 with he2
      rw [← he2]
      exact hnn

/-- Witness for C1 at the concrete fixture: reserving 3 of 5 is granted and
leaves 2. -/
theorem reserveTx_spec_check :
    (serviceReserveTx sA "e1" 3).1 = true ∧
    lookup "e1" (serviceReserveTx sA "e1" 3).2.events
      = some { evA with remaining := 2 } :=
  (reserveTx_spec sA "e1" 3 evA rfl).1 (by decide)

/-- C5: Release sets remaining to `min (remaining + qty) capacity`: it
restores `qty` seats clamped by the capacity, and leaves the capacity
unchanged. -/
theorem release_clamped (s : SysState) (eid : String) (qty : Int) (e : Event)
    (h : lookup eid s.events = some e) :
    lookup eid (serviceRelease s eid qty).events
      = some { e with remaining := min (e.remaining + qty) e.capacity } ∧
    ∀ e2, lookup eid (serviceRelease s eid qty).events = some e2 →
      e2.capacity = e.capacity ∧ e2.remaining ≤ e.capacity := by
  have hstep : (serviceRelease s eid qty).events
      = setKey eid { e with remaining := min (e.remaining + qty) e.capacity } s.events := by
    simp [serviceRelease, h]
  constructor
  · rw [hstep]
    exact lookup_setKey_self ..
  · intro e2 he2
    rw [hstep, lookup_setKey_self] at he2
    injection he2 with he2
    rw [← he2]
    exact ⟨rfl, min_le_right _ _⟩

/-- Witness for C5 at the concrete fixture: releasing 20 on remaining 5 /
capacity 10 clamps to 10. -/
theorem release_clamped_check :
    lookup "e1" (serviceRelease sA "e1" 20).events
      = some { evA with remaining := 10 } :=
  (release_clamped sA "e1" 20 evA rfl).1

/-- C7: the speculative reservation on a cache counter holding `v` is granted
exactly when `v - qty` is non-negative, leaving the counter at `v - qty`;
otherwise it compensates with an increment of the same magnitude, so the
counter nets to `v`, and reports not granted. -/
theorem speculative_reserve_spec (s : SysState) (eid : String) (qty v : Int)
    (h : lookup eid s.cacheRemaining = some v) :
    (0 ≤ v - qty →
      (serviceReserve s eid qty).1 = true ∧
      lookup eid (serviceReserve s eid qty).2.cacheRemaining = some (v - qty)) ∧
    (v - qty < 0 →
      (serviceReserve s eid qty).1 = false ∧
      lookup eid (serviceReserve s eid qty).2.cacheRemaining = some v) := by
  have harith : v - qty - -qty = v := by omega
  constructor
  · intro hnn
    have hlt : ¬ (v - qty < 0) := not_lt.mpr hnn
    constructor <;>
      simp [serviceReserve, decrementSeats, h, hlt, lookup_setKey_self]
  · intro hneg
    constructor <;>
      simp [serviceReserve, decrementSeats, h, hneg, lookup_setKey_self, harith]

/-- Witness for C7 at the concrete fixture: requesting 7 with counter 5 is
denied and the counter nets back to 5. -/
theorem speculative_reserve_spec_check :
    (serviceReserve sA "e1" 7).1 = false ∧
    lookup "e1" (serviceReserve sA "e1" 7).2.cacheRemaining = some 5 :=
  (speculative_reserve_spec sA "e1" 7 5 rfl).2 (by decide)

/-- C10: on any existing event the legacy conditional-UPDATE primitive
repo.Reserve and the row-locking primitive repo.ReserveTx agree on the
granted result and on the final event table, and event Service.ReserveTx's
delegation to the legacy primitive preserves both as well. -/
theorem reserve_equiv_reserveTx (s : SysState) (eid : String) (qty : Int) (e : Event)
    (h : lookup eid s.events = some e) :
    repoReserveTx s eid qty = Except.ok (repoReserve s eid qty) ∧
    (serviceReserveTx s eid qty).1 = (repoReserve s eid qty).1 ∧
    (serviceReserveTx s eid qty).2.events = (repoReserve s eid qty).2.events := by
  by_cases hge : e.remaining ≥ qty
  · have hnlt : ¬ e.remaining < qty := not_lt.mpr hge
    refine ⟨?_, ?_, ?_⟩ <;>
      simp [repoReserveTx, repoReserve, serviceReserveTx, h, hge, hnlt, lookup_setKey_self]
  · have hlt : e.remaining < qty := lt_of_not_ge hge
    refine ⟨?_, ?_, ?_⟩ <;>
      simp [repoReserveTx, repoReserve, serviceReserveTx, h, hge, hlt]

/-- Witness for C10 at the concrete fixture. -/
theorem reserve_equiv_reserveTx_check :
    repoReserveTx sA "e1" 3 = Except.ok (repoReserve sA "e1" 3) :=
  (reserve_equiv_reserveTx sA "e1" 3 evA rfl).1

/-- C3: when the authoritative reservation is not granted
(`remaining < qty`), CreateBooking signals `ErrNotEnoughTickets`, the HTTP
layer surfaces 409 Conflict, and the whole state — in particular the booking
table and the event's remaining — is unchanged. -/
theorem create_denied_aborts (s : SysState) (userID eid newID : String) (qty : Int)
    (pf cf : Bool) (e : Event)
    (h : lookup eid s.events = some e) (hlt : e.remaining < qty) :
    (createBooking s userID eid qty newID pf cf).1
      = Except.error SvcError.notEnoughTickets ∧
    (createBooking s userID eid qty newID pf cf).2 = s ∧
    handlerCreateStatus (createBooking s userID eid qty newID pf cf).1 = 409 := by
  have hge : ¬ e.remaining ≥ qty := not_le.mpr hlt
  have hstep : createBooking s userID eid qty newID pf cf
      = (Except.error SvcError.notEnoughTickets, s) := by
    simp [createBooking, serviceReserveTx, repoReserve, h, hge]
  rw [hstep]
  exact ⟨rfl, rfl, rfl⟩

/-- Witness for C3 at the concrete fixture: requesting 9 of 5 is denied with
no state change and a 409. -/
theorem create_denied_aborts_check :
    (createBooking sA "u1" "e1" 9 "b9" false false).1
      = Except.error SvcError.notEnoughTickets ∧
    (createBooking sA "u1" "e1" 9 "b9" false false).2 = sA ∧
    handlerCreateStatus (createBooking sA "u1" "e1" 9 "b9" false false).1 = 409 :=
  create_denied_aborts sA "u1" "e1" "b9" 9 false false evA rfl (by decide)

/-- C4 counterexample: at the concrete fixture the CreateBooking transaction
commits (the booking row is present afterwards), yet a failing publish makes
CreateBooking return an error instead of the booking identifier — the
post-commit publish failure is not merely logged. -/
theorem create_publish_failure_errors :
    (createBooking sA "u1" "e1" 2 "b1" true false).1
      = Except.error SvcError.publishFailed ∧
    repoGetBooking (createBooking sA "u1" "e1" 2 "b1" true false).2.bookings "b1"
      = some { id := "b1", userID := "u1", eventID := "e1", quantity := 2,
               unitPriceCents := 1000, status := Status.pending } := by
  constructor <;> rfl

/-- C4 amended: whenever the CreateBooking transaction commits, the booking
row is written and never unwound by a post-commit failure; a failure setting
the timeout marker is only logged and the id is still returned without
error, but a publish failure is returned to the caller as an error. -/
theorem create_postcommit_spec (s : SysState) (userID eid newID : String) (qty : Int)
    (e : Event) (h : lookup eid s.events = some e) (hge : qty ≤ e.remaining)
    (hfresh : repoGetBooking s.bookings newID = none) :
    (∀ pf cf, repoGetBooking (createBooking s userID eid qty newID pf cf).2.bookings newID
        = some { id := newID, userID := userID, eventID := eid, quantity := qty,
                 unitPriceCents := e.ticketPriceCents, status := Status.pending }) ∧
    (∀ cf, (createBooking s userID eid qty newID false cf).1 = Except.ok newID) ∧
    (createBooking s userID eid qty newID true false).1
      = Except.error SvcError.publishFailed := by
  have hge2 : e.remaining ≥ qty := hge
  have hb : repoGetBooking (s.bookings ++
        [{ id := newID, userID := userID, eventID := eid, quantity := qty,
           unitPriceCents := e.ticketPriceCents, status := Status.pending }]) newID
      = some { id := newID, userID := userID, eventID := eid, quantity := qty,
               unitPriceCents := e.ticketPriceCents, status := Status.pending } :=
    repoGetBooking_append _ _ _ hfresh rfl
  refine ⟨fun pf cf => ?_, fun cf => ?_, ?_⟩
  · cases pf <;> cases cf <;>
      simpa [createBooking, serviceReserveTx, repoReserve, h, hge2,
        lookup_setKey_self] using hb
  · cases cf <;>
      simp [createBooking, serviceReserveTx, repoReserve, h, hge2, lookup_setKey_self]
  · simp [createBooking, serviceReserveTx, repoReserve, h, hge2, lookup_setKey_self]

/-- Witness for C4 amended at the concrete fixture: with a failing
timeout-marker set, CreateBooking still returns the id. -/
theorem create_postcommit_spec_check :
    (createBooking sA "u1" "e1" 2 "b1" false true).1 = Except.ok "b1" :=
  (create_postcommit_spec sA "u1" "e1" "b1" 2 evA rfl (by decide) rfl).2.1 true

/-- C9 counterexample: on the concrete fixture (remaining 5 ≤ capacity 10),
the admin capacity edit down to 3 leaves remaining at 5, strictly above the
new capacity — the invariant `remaining ≤ capacity` is broken by a
client-facing update. -/
theorem capacity_edit_breaks_invariant :
    evA.remaining ≤ evA.capacity ∧
    (handlerUpdateEvent evA reqCapacity3).capacity
      < (handlerUpdateEvent evA reqCapacity3).remaining := by
  constructor <;> decide

/-- C9 amended: the admin update never changes `remaining` at all (so it
never resets it above the already-sold count and preserves
`0 ≤ remaining`), and a capacity edit sets `capacity` to the requested
value; the invariant `remaining ≤ capacity` is preserved when the new
capacity is at least the current remaining, but a capacity edit below the
current remaining leaves `remaining` above the new capacity. -/
theorem update_remaining_spec (existing : Event) (req : UpdateEventRequest) :
    (handlerUpdateEvent existing req).remaining = existing.remaining ∧
    (req.capacity = none →
      (handlerUpdateEvent existing req).capacity = existing.capacity) ∧
    ∀ c, req.capacity = some c →
      (handlerUpdateEvent existing req).capacity = c ∧
      (existing.remaining ≤ c →
        (handlerUpdateEvent existing req).remaining
          ≤ (handlerUpdateEvent existing req).capacity) := by
  rcases req with ⟨n, d, sa, ea, cap, tp⟩
  cases n <;> cases d <;> cases sa <;> cases ea <;> cases cap <;> cases tp <;>
    simp [handlerUpdateEvent, minInt] <;>
    split_ifs <;>
    simp_all <;>
    omega

/-- Witness for C9 amended at the concrete fixture: a capacity edit up to 20
keeps remaining at 5 and the invariant holds. -/
theorem update_remaining_spec_check :
    (handlerUpdateEvent evA reqCapacity20).remaining = evA.remaining ∧
    (handlerUpdateEvent evA reqCapacity20).capacity = 20 ∧
    (handlerUpdateEvent evA reqCapacity20).remaining
      ≤ (handlerUpdateEvent evA reqCapacity20).capacity :=
  ⟨(update_remaining_spec evA reqCapacity20).1,
   ((update_remaining_spec evA reqCapacity20).2.2 20 rfl).1,
   ((update_remaining_spec evA reqCapacity20).2.2 20 rfl).2 (by decide)⟩

/-- C2 counterexample: on the concrete fixture, ConfirmBooking applied to a
CANCELLED booking is not a no-op: it moves the terminal booking to the other
terminal state CONFIRMED and updates the statistics cache. -/
theorem confirm_on_cancelled_not_noop :
    confirmBooking sCancelled "b1"
      = Except.ok { sCancelled with
          bookings := [bkConfirmed],
          statsCache := [("e1", (2, 2000))] } := by
  rfl

/-- C2 amended: the terminal guards only protect against repeating the same
transition: ConfirmBooking on a CONFIRMED booking and CancelBooking on a
CANCELLED booking are no-ops returning success with no state change, but
ConfirmBooking on a CANCELLED booking transitions it to CONFIRMED and
CancelBooking on a CONFIRMED booking transitions it to CANCELLED (releasing
seats and updating statistics); a terminal booking is not protected from
moving to the other terminal state. -/
theorem terminal_transition_spec (s : SysState) (bid : String) (b : Booking)
    (h : repoGetBooking s.bookings bid = some b) :
    (b.status = Status.confirmed → confirmBooking s bid = Except.ok s) ∧
    (b.status = Status.cancelled → cancelBooking s bid = Except.ok s) ∧
    (b.status = Status.cancelled →
      (confirmBooking s bid).map
          (fun t => (repoGetBooking t.bookings bid).map Booking.status)
        = Except.ok (some Status.confirmed)) ∧
    (b.status = Status.confirmed →
      (cancelBooking s bid).map
          (fun t => (repoGetBooking t.bookings bid).map Booking.status)
        = Except.ok (some Status.cancelled)) := by
  refine ⟨fun hst => ?_, fun hst => ?_, fun hst => ?_, fun hst => ?_⟩
  · simp [confirmBooking, h, hst]
  · simp [cancelBooking, h, hst]
  · have hne : ¬ b.status = Status.confirmed := by simp [hst]
    simp [confirmBooking, h, hne, updateEventStatsCache, Except.map,
      repoGetBooking_update]
  · have hne : ¬ b.status = Status.cancelled := by simp [hst]
    simp [cancelBooking, h, hne, updateEventStatsCache, Except.map,
      serviceRelease_bookings, repoGetBooking_update]

/-- Witness for C2 amended at the concrete fixture: confirming a CONFIRMED
booking is a no-op, while cancelling it flips it to CANCELLED. -/
theorem terminal_transition_spec_check :
    confirmBooking sConfirmed "b1" = Except.ok sConfirmed ∧
    (cancelBooking sConfirmed "b1").map
        (fun t => (repoGetBooking t.bookings "b1").map Booking.status)
      = Except.ok (some Status.cancelled) :=
  ⟨(terminal_transition_spec sConfirmed "b1" bkConfirmed rfl).1 rfl,
   (terminal_transition_spec sConfirmed "b1" bkConfirmed rfl).2.2.2 rfl⟩

/-- C6: ConfirmBooking and CancelBooking are idempotent: a successful call
followed by the same call returns success and leaves the state of the first
call untouched — no second status write, no second release, no statistics
change. -/
theorem confirm_cancel_idempotent (s : SysState) (bid : String) :
    (∀ t, confirmBooking s bid = Except.ok t → confirmBooking t bid = Except.ok t) ∧
    (∀ t, cancelBooking s bid = Except.ok t → cancelBooking t bid = Except.ok t) := by
  constructor
  · intro t h1
    rcases hb : repoGetBooking s.bookings bid with _ | b
    · simp [confirmBooking, hb] at h1
    · by_cases hst : b.status = Status.confirmed
      · simp only [confirmBooking, hb, if_pos hst, Except.ok.injEq] at h1
        subst h1
        simp [confirmBooking, hb, hst]
      · simp only [confirmBooking, hb, if_neg hst, Except.ok.injEq] at h1
        subst h1
        have hget : repoGetBooking (repoUpdateStatus s.bookings bid Status.confirmed) bid
            = some { b with status := Status.confirmed } := by
          rw [repoGetBooking_update, hb]
          rfl
        simp [confirmBooking, updateEventStatsCache, hget]
  · intro t h1
    rcases hb : repoGetBooking s.bookings bid with _ | b
    · simp [cancelBooking, hb] at h1
    · by_cases hst : b.status = Status.cancelled
      · simp only [cancelBooking, hb, if_pos hst, Except.ok.injEq] at h1
        subst h1
        simp [cancelBooking, hb, hst]
      · simp only [cancelBooking, hb, if_neg hst, Except.ok.injEq] at h1
        subst h1
        have hget : repoGetBooking (repoUpdateStatus s.bookings bid Status.cancelled) bid
            = some { b with status := Status.cancelled } := by
          rw [repoGetBooking_update, hb]
          rfl
        simp [cancelBooking, updateEventStatsCache, serviceRelease_bookings, hget]

/-- Witness for C6 at the concrete fixture: confirming the already-confirmed
result of a confirm is a no-op success. -/
theorem confirm_cancel_idempotent_check :
    confirmBooking sAfterConfirm "b1" = Except.ok sAfterConfirm :=
  (confirm_cancel_idempotent sPending "b1").1 sAfterConfirm rfl

theorem runOp_preserves (s : SysState) (op : LifecycleOp)
    (hu : idsUnique s.bookings) (h : ∀ e, statsAgrees s e) :
    idsUnique (runOp s op).bookings ∧ ∀ e, statsAgrees (runOp s op) e := by
  cases op with
  | confirm bid =>
    rcases hb : repoGetBooking s.bookings bid with _ | b
    · simpa [runOp, confirmBooking, hb] using ⟨hu, h⟩
    · by_cases hst : b.status = Status.confirmed
      · simpa [runOp, confirmBooking, hb, hst] using ⟨hu, h⟩
      · have hbook : (runOp s (LifecycleOp.confirm bid)).bookings
            = repoUpdateStatus s.bookings bid Status.confirmed := by
          simp [runOp, confirmBooking, hb, hst, updateEventStatsCache]
        have hstats : (runOp s (LifecycleOp.confirm bid)).statsCache
            = setKey b.eventID
                (statsRecompute (repoUpdateStatus s.bookings bid Status.confirmed) b.eventID)
                s.statsCache := by
          simp [runOp, confirmBooking, hb, hst, updateEventStatsCache]
        refine ⟨?_, ?_⟩
        · rw [hbook]
          exact idsUnique_update _ _ _ hu
        · intro e v hv
          rw [hstats] at hv
          rw [hbook]
          by_cases he : e = b.eventID
          · subst he
            rw [lookup_setKey_self] at hv
            injection hv with hv
            exact hv.symm
          · rw [lookup_setKey_ne _ _ _ _ he] at hv
            rw [statsRecompute_update_ne s.bookings bid Status.confirmed e hu b hb
              (fun hc => he hc.symm)]
            exact h e v hv
  | cancel bid =>
    rcases hb : repoGetBooking s.bookings bid with _ | b
    · simpa [runOp, cancelBooking, hb] using ⟨hu, h⟩
    · by_cases hst : b.status = Status.cancelled
      · simpa [runOp, cancelBooking, hb, hst] using ⟨hu, h⟩
      · have hbook : (runOp s (LifecycleOp.cancel bid)).bookings
            = repoUpdateStatus s.bookings bid Status.cancelled := by
          simp [runOp, cancelBooking, hb, hst, updateEventStatsCache,
            serviceRelease_bookings]
        have hstats : (runOp s (LifecycleOp.cancel bid)).statsCache
            = setKey b.eventID
                (statsRecompute (repoUpdateStatus s.bookings bid Status.cancelled) b.eventID)
                s.statsCache := by
          simp [runOp, cancelBooking, hb, hst, updateEventStatsCache,
            serviceRelease_bookings, serviceRelease_statsCache]
        refine ⟨?_, ?_⟩
        · rw [hbook]
          exact idsUnique_update _ _ _ hu
        · intro e v hv
          rw [hstats] at hv
          rw [hbook]
          by_cases he : e = b.eventID
          · subst he
            rw [lookup_setKey_self] at hv
            injection hv with hv
            exact hv.symm
          · rw [lookup_setKey_ne _ _ _ _ he] at hv
            rw [statsRecompute_update_ne s.bookings bid Status.cancelled e hu b hb
              (fun hc => he hc.symm)]
            exact h e v hv

/-- C8: if every cached per-event statistics entry agrees with the full
recomputation over CONFIRMED ledger rows (sum of quantity, sum of
quantity × unit price in cents), then after any sequence of
ConfirmBooking/CancelBooking calls each cached entry still equals the full
recomputation over the resulting ledger — the cache is never an
incrementally patched value. -/
theorem stats_cache_full_recompute (s : SysState)
    (hu : idsUnique s.bookings) (h : ∀ e, statsAgrees s e)
    (ops : List LifecycleOp) (eid : String) :
    statsAgrees (runOps s ops) eid := by
  induction ops generalizing s with
  | nil => exact h eid
  | cons op rest ih =>
    have step := runOp_preserves s op hu h
    exact ih (runOp s op) step.1 step.2

/-- Witness for C8 at the concrete fixture: after confirming the pending
booking, the cached entry for `e1` agrees with the recomputation. -/
theorem stats_cache_full_recompute_check :
    statsAgrees (runOps sPending [LifecycleOp.confirm "b1"]) "e1" :=
  stats_cache_full_recompute sPending
    (by simp [idsUnique, sPending, sA])
    (fun e v hv => by simp [sPending, sA, lookup] at hv)
    [LifecycleOp.confirm "b1"] "e1"

end TicketBooking
